import Mathlib

/-!
Shallow embedding of the task API request handlers of `src/index.js`
(an Express application over a Supabase table `Tasks`).

The handlers are translated as pure Lean functions over an explicit
store state (`Store`, a list of task rows plus an id counter).  The
Supabase query-builder calls (`or`/`in`/`ilike`/`gte`/`lte`/`order`/
`range`/`single`) are modelled by a small query structure whose
execution filters, orders and windows the row list; `ilike` is
case-insensitive substring matching, and SQL `NULL` semantics make any
filter fail on a `none` column.  JavaScript-specific behaviour that the
handlers rely on is modelled explicitly: string truthiness (empty
string is falsy), `parseInt`, `x || default` (so `0` also falls back to
the default), `String.prototype.trim`, `toLowerCase`, and
`split(',')`.  Platform date parsing (`Date.parse`) is modelled on ISO
calendar dates `YYYY-MM-DD`; date columns are carried as their ISO text
form, whose lexicographic order agrees with chronological order.
-/

namespace TaskApi

/-! ### JavaScript string helpers -/

/-- Whitespace characters removed by `String.prototype.trim` (ASCII subset). -/
def isWS (c : Char) : Bool :=
  c = ' ' || c = '\t' || c = '\n' || c = '\r' || c = '\x0b' || c = '\x0c'

/-- `String.prototype.trim`: strip whitespace from both ends. -/
def jsTrim (s : String) : String :=
  String.mk (((s.data.dropWhile isWS).reverse.dropWhile isWS).reverse)

/-- `String.prototype.toLowerCase` (ASCII). -/
def lowerStr (s : String) : String :=
  String.mk (s.data.map Char.toLower)

/-- Does `pat` occur as a contiguous sublist of `hay`? -/
def containsSub (hay pat : List Char) : Bool :=
  match hay with
  | [] => pat.isEmpty
  | _ :: t => pat.isPrefixOf hay || containsSub t pat

/-- SQL `ilike '%pat%'`: case-insensitive substring match. -/
def ilikeB (hay pat : String) : Bool :=
  containsSub (lowerStr hay).data (lowerStr pat).data

/-- `ilike` applied to a nullable column: `NULL` never matches. -/
def ilikeOpt (v : Option String) (pat : String) : Bool :=
  match v with
  | some s => ilikeB s pat
  | none => false

/-- `String.prototype.split(',')`. -/
def splitCommaAux : List Char → List Char → List String
  | [], acc => [String.mk acc.reverse]
  | c :: t, acc =>
    if c = ',' then String.mk acc.reverse :: splitCommaAux t []
    else splitCommaAux t (c :: acc)

/-- `String.prototype.split(',')` on a whole string. -/
def splitComma (s : String) : List String :=
  splitCommaAux s.data []

/-- JavaScript truthiness of an optional string parameter:
`undefined` and the empty string are falsy. -/
def tr (o : Option String) : Bool :=
  match o with
  | none => false
  | some s => !(s == "")

/-- The test `!x || !x.trim()` used for required string fields:
true when the field is absent, empty, or only whitespace. -/
def blankS (o : Option String) : Bool :=
  match o with
  | none => true
  | some s => jsTrim s == ""

/-- `parseInt` (radix 10): skip leading whitespace, optional sign,
then a leading digit run; `none` models `NaN`. -/
def parseIntJS (o : Option String) : Option Int :=
  match o with
  | none => none
  | some s =>
    let cs := s.data.dropWhile isWS
    let (sign, cs) : Int × List Char :=
      match cs with
      | '-' :: t => (-1, t)
      | '+' :: t => (1, t)
      | _ => (1, cs)
    let ds := cs.takeWhile Char.isDigit
    if ds.isEmpty then none
    else some (sign * (ds.foldl (fun n c => n * 10 + (c.toNat - 48)) 0 : Nat))

/-- JavaScript `x || d` on a parsed integer: `NaN` and `0` are falsy. -/
def jsOr (v : Option Int) (d : Int) : Int :=
  match v with
  | none => d
  | some n => if n = 0 then d else n

/-- `Math.min(Math.max(parseInt(limit) || d, 1), 100)`. -/
def effLimit (s : Option String) (d : Int) : Nat :=
  (min (max (jsOr (parseIntJS s) d) 1) 100).toNat

/-- `Math.max(parseInt(page) || 1, 1)`. -/
def effPage (s : Option String) : Nat :=
  (max (jsOr (parseIntJS s) 1) 1).toNat

/-- `Date.parse`, modelled on ISO calendar dates `YYYY-MM-DD`; the
result is a number whose order agrees with chronological order. -/
def dateParse (s : String) : Option Nat :=
  match s.data with
  | [y1, y2, y3, y4, '-', m1, m2, '-', d1, d2] =>
    if [y1, y2, y3, y4, m1, m2, d1, d2].all Char.isDigit then
      let y := ((y1.toNat - 48) * 10 + (y2.toNat - 48)) * 100
               + (y3.toNat - 48) * 10 + (y4.toNat - 48)
      let m := (m1.toNat - 48) * 10 + (m2.toNat - 48)
      let d := (d1.toNat - 48) * 10 + (d2.toNat - 48)
      if 1 ≤ m && m ≤ 12 && 1 ≤ d && d ≤ 31 then
        some (y * 10000 + m * 100 + d)
      else none
    else none
  | _ => none

/-! ### Data model -/

/-- A row of the `Tasks` table.  Optional columns are nullable in the
store; `created_at`/`updated_at` are carried as ISO text. -/
structure Task where
  id : Nat
  title : String
  author : String
  priority : Option String := none
  description : Option String := none
  due_date : Option String := none
  start_date : Option String := none
  created_at : String := ""
  updated_at : Option String := none
deriving DecidableEq, Repr

/-- The task store: the `Tasks` table plus the id sequence. -/
structure Store where
  rows : List Task
  nextId : Nat
deriving DecidableEq, Repr

/-- Column access by name, as used by filters and `order`. -/
def fieldVal (t : Task) : String → Option String
  | "title" => some t.title
  | "author" => some t.author
  | "description" => t.description
  | "priority" => t.priority
  | "created_at" => some t.created_at
  | "updated_at" => t.updated_at
  | "start_date" => t.start_date
  | "due_date" => t.due_date
  | _ => none

/-- SQL `IN` on a nullable column: `NULL` is never a member. -/
def inOpt (v : Option String) (l : List String) : Bool :=
  match v with
  | some s => l.contains s
  | none => false

/-- Lexicographic `≤` on character lists by code point (the text
ordering the store applies to its text and ISO-date columns). -/
def charsLe : List Char → List Char → Bool
  | [], _ => true
  | _ :: _, [] => false
  | a :: as, b :: bs =>
    if a.toNat < b.toNat then true
    else if b.toNat < a.toNat then false
    else charsLe as bs

/-- Lexicographic `≤` on strings. -/
def strLeB (a b : String) : Bool :=
  charsLe a.data b.data

/-- SQL `>=` on a nullable column against a bound: false on `NULL`. -/
def geOpt (v : Option String) (bound : String) : Bool :=
  match v with
  | some s => strLeB bound s
  | none => false

/-- SQL `<=` on a nullable column against a bound: false on `NULL`. -/
def leOpt (v : Option String) (bound : String) : Bool :=
  match v with
  | some s => strLeB s bound
  | none => false

/-- `single()`: succeeds exactly when the filtered result has one row;
zero rows (or several) produce a store error. -/
def singleRead (rows : List Task) : Except String Task :=
  match rows with
  | [t] => .ok t
  | _ => .error "JSON object requested, multiple (or no) rows returned"

/-- Comparison used by `order(field, {ascending, nullsFirst})`:
a total preorder on column values placing `NULL`s as requested. -/
def optCmpLe (asc nullsFirst : Bool) (a b : Option String) : Bool :=
  match a, b with
  | none, none => true
  | none, some _ => nullsFirst
  | some _, none => !nullsFirst
  | some x, some y => if asc then strLeB x y else strLeB y x

/-- The store's `order(field, {ascending, nullsFirst})`. -/
def orderRows (field : String) (asc nullsFirst : Bool) (rows : List Task) : List Task :=
  List.insertionSort
    (fun a b => optCmpLe asc nullsFirst (fieldVal a field) (fieldVal b field) = true) rows

/-- The store's `range(from, to)`: the inclusive zero-based window. -/
def rangeRows (a b : Nat) (rows : List Task) : List Task :=
  (rows.drop a).take (b + 1 - a)

/-- `Math.ceil(total / limit)` for a positive integer limit. -/
def ceilDivNat (a b : Nat) : Nat :=
  (a + b - 1) / b

/-! ### Query-builder model -/

/-- A Supabase select query under construction: each builder call
appends one row filter; execution keeps the rows passing all of them. -/
structure DBQuery where
  filters : List (Task → Bool)

/-- `select('*', { count: 'exact' })`: no filters yet. -/
def DBQuery.select : DBQuery := ⟨[]⟩

/-- Append one filter (used for `or`, `in`, `ilike`, `gte`, `lte`). -/
def DBQuery.addF (q : DBQuery) (f : Task → Bool) : DBQuery :=
  ⟨q.filters ++ [f]⟩

/-- Execute the accumulated filters against the table. -/
def runFilters (q : DBQuery) (rows : List Task) : List Task :=
  rows.filter (fun t => q.filters.all (fun f => f t))

/-! ### POST /tasks -/

/-- Request body of the create endpoint (fields absent from the JSON
body are `none`). -/
structure CreateBody where
  title : Option String := none
  author : Option String := none
  priority : Option String := none
  description : Option String := none
  due_date : Option String := none
  start_date : Option String := none
deriving DecidableEq, Repr

/-- The allowed priority values. -/
def validPriorities : List String := ["low", "medium", "high"]

/-- `new Date(s) > new Date(d)` after both strings parsed as dates
(comparisons against `NaN` dates are false). -/
def jsDateGt (s d : String) : Bool :=
  match dateParse s, dateParse d with
  | some a, some b => decide (a > b)
  | _, _ => false

/-- The validation chain of `POST /tasks`, in source order; `some msg`
is the 400 response body, `none` means validation passed. -/
def validateCreate (b : CreateBody) : Option String :=
  if blankS b.title then some "Title is required"
  else if blankS b.author then some "Author is required"
  else if tr b.priority && !(validPriorities.contains (lowerStr (b.priority.getD ""))) then
    some "Priority must be one of: low, medium, high"
  else if tr b.due_date && (dateParse (b.due_date.getD "")).isNone then
    some "Invalid due_date format"
  else if tr b.start_date && (dateParse (b.start_date.getD "")).isNone then
    some "Invalid start_date format"
  else if tr b.start_date && tr b.due_date
          && jsDateGt (b.start_date.getD "") (b.due_date.getD "") then
    some "Start date cannot be after due date"
  else none

/-- Response of `POST /tasks`. -/
inductive CreateResp where
  | badRequest (msg : String)
  | created (t : Task)
deriving DecidableEq, Repr

/-- HTTP status of a create response. -/
def CreateResp.status : CreateResp → Nat
  | .badRequest _ => 400
  | .created _ => 201

/-- The row the store inserts for a valid body: only supplied fields
are present in the model object; the store assigns `id` and
`created_at` (here `now`). -/
def insertedTask (b : CreateBody) (assignedId : Nat) (now : String) : Task :=
  { id := assignedId
    title := jsTrim (b.title.getD "")
    author := jsTrim (b.author.getD "")
    priority := if tr b.priority then some (lowerStr (b.priority.getD "")) else none
    description := if tr b.description then some (jsTrim (b.description.getD "")) else none
    due_date := if tr b.due_date then b.due_date else none
    start_date := if tr b.start_date then b.start_date else none
    created_at := now
    updated_at := none }

/-- Handler of `POST /tasks`: validate, then insert and return the
created row; on a validation failure no store call is made. -/
def createTask (b : CreateBody) (now : String) (st : Store) : CreateResp × Store :=
  match validateCreate b with
  | some msg => (.badRequest msg, st)
  | none =>
    let t := insertedTask b st.nextId now
    (.created t, ⟨st.rows ++ [t], st.nextId + 1⟩)

/-! ### GET /tasks/:id -/

/-- Response of `GET /tasks/:id`.  The handler forwards any `single()`
store error as a 500 with the store's message. -/
inductive GetResp where
  | fetchError (msg : String)
  | ok (t : Task)
deriving DecidableEq, Repr

/-- HTTP status of a get response. -/
def GetResp.status : GetResp → Nat
  | .fetchError _ => 500
  | .ok _ => 200

/-- Handler of `GET /tasks/:id`: `select('*').eq('id', id).single()`. -/
def getTask (id : Nat) (st : Store) : GetResp :=
  match singleRead (st.rows.filter (fun t => t.id == id)) with
  | .error m => .fetchError m
  | .ok t => .ok t

/-! ### GET /tasks (paginated list) -/

/-- Response of `GET /tasks` (always 200 in this model: the store's
range read does not fail). -/
structure ListResp where
  data : List Task
  page : Nat
  limit : Nat
  total : Nat
  totalPages : Nat
deriving DecidableEq, Repr

/-- Handler of `GET /tasks`: clamp `limit`/`page`, read the window
`[(page-1)*limit, (page-1)*limit + limit - 1]` plus the exact count. -/
def listTasks (limitQ pageQ : Option String) (st : Store) : ListResp :=
  let limit := effLimit limitQ 10
  let page := effPage pageQ
  let a := (page - 1) * limit
  let b := a + limit - 1
  { data := rangeRows a b st.rows
    page := page
    limit := limit
    total := st.rows.length
    totalPages := ceilDivNat st.rows.length limit }

/-! ### GET /tasks/search -/

/-- Query parameters of the search endpoint. -/
structure SearchParams where
  q : Option String := none
  fields : Option String := none
  limit : Option String := none
  page : Option String := none
  sort : Option String := none
  order : Option String := none
  priority : Option String := none
  author : Option String := none
  start_date_from : Option String := none
  start_date_to : Option String := none
  due_date_from : Option String := none
  due_date_to : Option String := none
deriving DecidableEq, Repr

/-- The searchable field set. -/
def searchableFields : List String := ["title", "description", "author", "priority"]

/-- `fields ? fields.split(',').filter(f => searchableFields.includes(f.trim())) : searchableFields`. -/
def resolveFields (fields : Option String) : List String :=
  if tr fields then
    (splitComma (fields.getD "")).filter (fun f => searchableFields.contains (jsTrim f))
  else searchableFields

/-- The `or(...)` condition built from the selected fields: the trimmed
term must `ilike`-match at least one of them. -/
def textPred (flds : List String) (term : String) (t : Task) : Bool :=
  flds.any (fun f => ilikeOpt (fieldVal t f) term)

/-- The priority list of the search endpoint:
`priority.split(',').map(p => p.trim())` (no lowercasing). -/
def searchPriorities (p : String) : List String :=
  (splitComma p).map jsTrim

/-- The priority list of the sort endpoint:
`priority.split(',').map(p => p.trim().toLowerCase())`. -/
def sortPriorities (p : String) : List String :=
  (splitComma p).map (fun s => lowerStr (jsTrim s))

/-- The filter chain the two filtered-list endpoints share (`in` on
priority, `ilike` on author, the four inclusive date bounds), appended
to a base query exactly as the source conditionally chains them.
`normPriority` is the endpoint's priority normalizer. -/
def addCommonFilters (p : SearchParams) (normPriority : String → List String)
    (q : DBQuery) : DBQuery :=
  let q := if tr p.priority then
      q.addF (fun t => inOpt t.priority (normPriority (p.priority.getD ""))) else q
  let q := if tr p.author then
      q.addF (fun t => ilikeB t.author (jsTrim (p.author.getD ""))) else q
  let q := if tr p.start_date_from then
      q.addF (fun t => geOpt t.start_date (p.start_date_from.getD "")) else q
  let q := if tr p.start_date_to then
      q.addF (fun t => leOpt t.start_date (p.start_date_to.getD "")) else q
  let q := if tr p.due_date_from then
      q.addF (fun t => geOpt t.due_date (p.due_date_from.getD "")) else q
  let q := if tr p.due_date_to then
      q.addF (fun t => leOpt t.due_date (p.due_date_to.getD "")) else q
  q

/-- The query the search endpoint executes (before `order`/`range`):
the `or` text condition plus every supplied structured filter. -/
def searchQuery (p : SearchParams) : DBQuery :=
  addCommonFilters p searchPriorities
    (DBQuery.select.addF (textPred (resolveFields p.fields) (jsTrim (p.q.getD ""))))

/-- The match set of the search endpoint: the rows its executed query
keeps (this is what `count` counts and `data` is windowed from). -/
def searchMatchedRows (p : SearchParams) (rows : List Task) : List Task :=
  runFilters (searchQuery p) rows

/-- The sort fields accepted by the search endpoint. -/
def validSortFields : List String :=
  searchableFields ++ ["created_at", "updated_at", "start_date", "due_date"]

/-- Successful payload of the search endpoint. -/
structure SearchOk where
  data : List Task
  query : String
  fields : List String
  resultsCount : Nat
  page : Nat
  limit : Nat
  total : Nat
  totalPages : Nat
  sortField : String
  orderStr : String
deriving DecidableEq, Repr

/-- Response of `GET /tasks/search`. -/
inductive SearchResp where
  | badRequest (msg : String)
  | ok (r : SearchOk)
deriving DecidableEq, Repr

/-- HTTP status of a search response. -/
def SearchResp.status : SearchResp → Nat
  | .badRequest _ => 400
  | .ok _ => 200

/-- Handler of `GET /tasks/search`: validate `q` and `fields`, filter,
order (store default `NULL` placement: last for ascending, first for
descending) and window the match set. -/
def searchTasks (p : SearchParams) (st : Store) : SearchResp :=
  if blankS p.q then .badRequest "Query parameter q is required"
  else
    let term := jsTrim (p.q.getD "")
    let flds := resolveFields p.fields
    if flds.isEmpty then
      .badRequest "Invalid fields. Available: title, description, author, priority"
    else
      let pageLimit := effLimit p.limit 20
      let pageNumber := effPage p.page
      let a := (pageNumber - 1) * pageLimit
      let b := a + pageLimit - 1
      let sortField :=
        if tr p.sort && validSortFields.contains (p.sort.getD "") then p.sort.getD ""
        else "created_at"
      let asc := p.order == some "asc"
      let matched := searchMatchedRows p st.rows
      let ordered := orderRows sortField asc (!asc) matched
      .ok { data := rangeRows a b ordered
            query := term
            fields := flds
            resultsCount := matched.length
            page := pageNumber
            limit := pageLimit
            total := matched.length
            totalPages := ceilDivNat matched.length pageLimit
            sortField := sortField
            orderStr := p.order.getD "desc" }

/-! ### GET /tasks/sort -/

/-- Query parameters of the sort endpoint. -/
structure SortParams where
  sort_by : Option String := none
  order : Option String := none
  limit : Option String := none
  page : Option String := none
  priority : Option String := none
  author : Option String := none
  start_date_from : Option String := none
  start_date_to : Option String := none
  due_date_from : Option String := none
  due_date_to : Option String := none
deriving DecidableEq, Repr

/-- The keys of the endpoint's `sortableFields` object. -/
def sortableFieldNames : List String :=
  ["title", "author", "priority", "created_at", "updated_at",
   "start_date", "due_date", "description"]

/-- `sort_by && sortableFields[sort_by] ? sortableFields[sort_by] : 'created_at'`. -/
def resolveSortBy (sort_by : Option String) : String :=
  if tr sort_by && sortableFieldNames.contains (sort_by.getD "") then sort_by.getD ""
  else "created_at"

/-- The structured filters of the sort endpoint, sharing `SearchParams`
field names (its `q`/`fields`/`sort` members stay `none`). -/
def sortFilterParams (p : SortParams) : SearchParams :=
  { priority := p.priority
    author := p.author
    start_date_from := p.start_date_from
    start_date_to := p.start_date_to
    due_date_from := p.due_date_from
    due_date_to := p.due_date_to }

/-- The filtered row set of the sort endpoint (what `count` counts). -/
def sortMatchedRows (p : SortParams) (rows : List Task) : List Task :=
  runFilters (addCommonFilters (sortFilterParams p) sortPriorities DBQuery.select) rows

/-- Response of `GET /tasks/sort` (always 200 in this model). -/
structure SortResp where
  data : List Task
  sortField : String
  orderStr : String
  page : Nat
  limit : Nat
  total : Nat
  totalPages : Nat
deriving DecidableEq, Repr

/-- Handler of `GET /tasks/sort`: apply the structured filters, order
by the resolved field (`nullsFirst: false`, so `NULL`s always last)
and window the result. -/
def sortTasks (p : SortParams) (st : Store) : SortResp :=
  let sortField := resolveSortBy p.sort_by
  let asc := p.order == some "asc"
  let pageLimit := effLimit p.limit 20
  let pageNumber := effPage p.page
  let a := (pageNumber - 1) * pageLimit
  let b := a + pageLimit - 1
  let matched := sortMatchedRows p st.rows
  let ordered := orderRows sortField asc false matched
  { data := rangeRows a b ordered
    sortField := sortField
    orderStr := if asc then "asc" else "desc"
    page := pageNumber
    limit := pageLimit
    total := matched.length
    totalPages := ceilDivNat matched.length pageLimit }

/-! ### PATCH /tasks/:id and DELETE /tasks/:id -/

/-- Partial update body: only present fields are overwritten. -/
structure UpdateBody where
  title : Option String := none
  author : Option String := none
  priority : Option String := none
  description : Option String := none
  due_date : Option String := none
  start_date : Option String := none
deriving DecidableEq, Repr

/-- The store's `update(updates)` on one row: overwrite exactly the
supplied columns. -/
def applyUpdates (t : Task) (u : UpdateBody) : Task :=
  { t with
    title := u.title.getD t.title
    author := u.author.getD t.author
    priority := match u.priority with | some v => some v | none => t.priority
    description := match u.description with | some v => some v | none => t.description
    due_date := match u.due_date with | some v => some v | none => t.due_date
    start_date := match u.start_date with | some v => some v | none => t.start_date }

/-- Response of `PATCH /tasks/:id` / `DELETE /tasks/:id`.  `okEmpty`
models `data[0]` being absent (`{data: undefined}` with status 200). -/
inductive MutResp where
  | notFound (msg : String)
  | ok (t : Task)
  | okEmpty
deriving DecidableEq, Repr

/-- HTTP status of an update/delete response. -/
def MutResp.status : MutResp → Nat
  | .notFound _ => 404
  | .ok _ => 200
  | .okEmpty => 200

/-- Handler of `PATCH /tasks/:id`: existence check via
`select('id').eq('id', id).single()`, then `update(...).eq('id', id)`
returning the updated rows. -/
def updateTask (id : Nat) (u : UpdateBody) (st : Store) : MutResp × Store :=
  match singleRead (st.rows.filter (fun t => t.id == id)) with
  | .error _ => (.notFound "Task not found", st)
  | .ok _ =>
    let newRows := st.rows.map (fun t => if t.id == id then applyUpdates t u else t)
    match newRows.filter (fun t => t.id == id) with
    | t :: _ => (.ok t, ⟨newRows, st.nextId⟩)
    | [] => (.okEmpty, ⟨newRows, st.nextId⟩)

/-- Handler of `DELETE /tasks/:id`: existence check, then
`delete().eq('id', id)` returning the removed rows. -/
def deleteTask (id : Nat) (st : Store) : MutResp × Store :=
  match singleRead (st.rows.filter (fun t => t.id == id)) with
  | .error _ => (.notFound "Task not found", st)
  | .ok _ =>
    let newRows := st.rows.filter (fun t => !(t.id == id))
    match st.rows.filter (fun t => t.id == id) with
    | t :: _ => (.ok t, ⟨newRows, st.nextId⟩)
    | [] => (.okEmpty, ⟨newRows, st.nextId⟩)

/-! ### Helper lemmas -/

theorem charsLe_total : ∀ a b : List Char, charsLe a b = true ∨ charsLe b a = true
  | [], _ => by left; rfl
  | _ :: _, [] => by right; rfl
  | a :: as, b :: bs => by
    by_cases hab : a.toNat < b.toNat
    · left; simp [charsLe, hab]
    · by_cases hba : b.toNat < a.toNat
      · right; simp [charsLe, hba]
      · rcases charsLe_total as bs with h | h
        · left; simpa [charsLe, hab, hba] using h
        · right; simpa [charsLe, hab, hba] using h

theorem charsLe_trans : ∀ a b c : List Char,
    charsLe a b = true → charsLe b c = true → charsLe a c = true
  | [], _, _ => by intro _ _; rfl
  | _ :: _, [], _ => by intro h _; simp [charsLe] at h
  | _ :: _, _ :: _, [] => by intro _ h; simp [charsLe] at h
  | a :: as, b :: bs, c :: cs => by
    intro h1 h2
    simp only [charsLe] at h1 h2 ⊢
    split at h1 <;> split at h2 <;> rename_i hab hbc
    · simp [Nat.lt_trans hab hbc]
    · split at h2 <;> rename_i hcb
      · simp at h2
      · have : a.toNat < c.toNat := by omega
        simp [this]
    · split at h1 <;> rename_i hba
      · simp at h1
      · have : a.toNat < c.toNat := by omega
        simp [this]
    · split at h1 <;> rename_i hba
      · simp at h1
      · split at h2 <;> rename_i hcb
        · simp at h2
        · have hac : ¬ a.toNat < c.toNat := by omega
          have hca : ¬ c.toNat < a.toNat := by omega
          simp only [hac, if_false, hca]
          exact charsLe_trans as bs cs h1 h2

theorem strLeB_total (a b : String) : strLeB a b = true ∨ strLeB b a = true :=
  charsLe_total a.data b.data

theorem strLeB_trans {a b c : String} (h1 : strLeB a b = true) (h2 : strLeB b c = true) :
    strLeB a c = true :=
  charsLe_trans a.data b.data c.data h1 h2

theorem optCmpLe_total (asc nf : Bool) (a b : Option String) :
    optCmpLe asc nf a b = true ∨ optCmpLe asc nf b a = true := by
  cases a <;> cases b
  · simp [optCmpLe]
  · cases nf <;> simp [optCmpLe]
  · cases nf <;> simp [optCmpLe]
  · rename_i x y
    cases asc
    · simpa [optCmpLe] using strLeB_total y x
    · simpa [optCmpLe] using strLeB_total x y

theorem optCmpLe_trans (asc nf : Bool) (a b c : Option String)
    (h1 : optCmpLe asc nf a b = true) (h2 : optCmpLe asc nf b c = true) :
    optCmpLe asc nf a c = true := by
  cases a <;> cases b <;> cases c <;> simp_all [optCmpLe] <;> cases asc <;> simp_all
  · exact strLeB_trans h2 h1
  · exact strLeB_trans h1 h2

/-- What `order(...)` returns is sorted for the null-placement
comparison. -/
theorem orderRows_sorted (field : String) (asc nf : Bool) (rows : List Task) :
    (orderRows field asc nf rows).Sorted
      (fun a b => optCmpLe asc nf (fieldVal a field) (fieldVal b field) = true) := by
  haveI : IsTotal Task (fun a b => optCmpLe asc nf (fieldVal a field) (fieldVal b field) = true) :=
    ⟨fun a b => optCmpLe_total asc nf _ _⟩
  haveI : IsTrans Task (fun a b => optCmpLe asc nf (fieldVal a field) (fieldVal b field) = true) :=
    ⟨fun a b c => optCmpLe_trans asc nf _ _ _⟩
  exact List.sorted_insertionSort _ rows

/-- Membership in an executed query: in the table and passing every
accumulated filter. -/
theorem mem_runFilters {q : DBQuery} {rows : List Task} {t : Task} :
    t ∈ runFilters q rows ↔ t ∈ rows ∧ ∀ f ∈ q.filters, f t = true := by
  simp [runFilters, List.mem_filter, List.all_eq_true]

/-- A conditionally-added filter, for describing the built query. -/
def condF (c : Bool) (f : Task → Bool) : List (Task → Bool) :=
  if c then [f] else []

theorem addCommonFilters_filters (p : SearchParams) (norm : String → List String)
    (q : DBQuery) :
    (addCommonFilters p norm q).filters =
      q.filters
      ++ condF (tr p.priority) (fun t => inOpt t.priority (norm (p.priority.getD "")))
      ++ condF (tr p.author) (fun t => ilikeB t.author (jsTrim (p.author.getD "")))
      ++ condF (tr p.start_date_from) (fun t => geOpt t.start_date (p.start_date_from.getD ""))
      ++ condF (tr p.start_date_to) (fun t => leOpt t.start_date (p.start_date_to.getD ""))
      ++ condF (tr p.due_date_from) (fun t => geOpt t.due_date (p.due_date_from.getD ""))
      ++ condF (tr p.due_date_to) (fun t => leOpt t.due_date (p.due_date_to.getD "")) := by
  unfold addCommonFilters condF
  split_ifs <;> simp_all [DBQuery.addF]

theorem mem_condF {c : Bool} {f g : Task → Bool} :
    f ∈ condF c g ↔ c = true ∧ f = g := by
  cases c <;> simp [condF]

/-- The effective limit is always within `[1, 100]`, and defaults to
`d` when the parameter is absent. -/
theorem effLimit_bounds (s : Option String) (d : Int) (hd : 1 ≤ d) (hd' : d ≤ 100) :
    1 ≤ effLimit s d ∧ effLimit s d ≤ 100 ∧ (s = none → effLimit s d = d.toNat) := by
  refine ⟨?_, ?_, ?_⟩
  · unfold effLimit
    have h1 : (1 : Int) ≤ max (jsOr (parseIntJS s) d) 1 := le_max_right _ _
    omega
  · unfold effLimit
    have h1 : min (max (jsOr (parseIntJS s) d) 1) 100 ≤ 100 := min_le_right _ _
    omega
  · rintro rfl
    unfold effLimit parseIntJS jsOr
    have : max d 1 = d := max_eq_left hd
    simp only [this]
    have : min d 100 = d := min_eq_left hd'
    omega

/-- The effective page is floored at 1 and defaults to 1. -/
theorem effPage_bounds (s : Option String) :
    1 ≤ effPage s ∧ (s = none → effPage s = 1) := by
  constructor
  · unfold effPage
    have h1 : (1 : Int) ≤ max (jsOr (parseIntJS s) 1) 1 := le_max_right _ _
    omega
  · rintro rfl
    rfl

/-- `ceilDivNat` is the ceiling of the division: characterising
inequalities for a positive divisor. -/
theorem ceilDivNat_bounds (a b : Nat) (hb : 0 < b) :
    a ≤ ceilDivNat a b * b ∧ ceilDivNat a b * b < a + b := by
  unfold ceilDivNat
  have h1 := Nat.div_add_mod (a + b - 1) b
  have h2 := Nat.mod_lt (a + b - 1) hb
  rw [Nat.mul_comm]
  generalize hq : b * ((a + b - 1) / b) = P at *
  omega

/-- In a table with no duplicate ids, filtering on an id yields either
nothing (the id is absent) or exactly the one row carrying it. -/
theorem filter_byId_cases : ∀ (rows : List Task), (rows.map Task.id).Nodup → ∀ id : Nat,
    (¬(∃ t ∈ rows, t.id = id) ∧ rows.filter (fun t => t.id == id) = [])
    ∨ (∃ t ∈ rows, t.id = id ∧ rows.filter (fun t => t.id == id) = [t])
  | [], _, id => by left; simp
  | a :: rows, h, id => by
    rw [List.map_cons, List.nodup_cons] at h
    obtain ⟨ha, hnd⟩ := h
    by_cases hid : a.id = id
    · right
      refine ⟨a, by simp, hid, ?_⟩
      have hnone : rows.filter (fun t => t.id == id) = [] := by
        rw [List.filter_eq_nil_iff]
        intro t ht
        simp only [beq_iff_eq]
        intro hteq
        exact ha (by rw [← hid] at hteq; exact hteq ▸ List.mem_map_of_mem Task.id ht)
      simp [List.filter_cons, hid, hnone]
    · have hfa : (a :: rows).filter (fun t => t.id == id) = rows.filter (fun t => t.id == id) := by
        simp [List.filter_cons, hid]
      rcases filter_byId_cases rows hnd id with ⟨hne, hfe⟩ | ⟨t, hmem, hteq, hfe⟩
      · left
        refine ⟨?_, by rw [hfa]; exact hfe⟩
        rintro ⟨t, ht, hteq⟩
        rcases List.mem_cons.mp ht with rfl | ht
        · exact hid hteq
        · exact hne ⟨t, ht, hteq⟩
      · right
        exact ⟨t, List.mem_cons_of_mem _ hmem, hteq, by rw [hfa]; exact hfe⟩

/-- The create validation chain passes exactly when none of its six
conditions fires. -/
theorem validateCreate_eq_none_iff (b : CreateBody) :
    validateCreate b = none ↔
      blankS b.title = false ∧ blankS b.author = false
      ∧ (tr b.priority && !(validPriorities.contains (lowerStr (b.priority.getD "")))) = false
      ∧ (tr b.due_date && (dateParse (b.due_date.getD "")).isNone) = false
      ∧ (tr b.start_date && (dateParse (b.start_date.getD "")).isNone) = false
      ∧ (tr b.start_date && tr b.due_date
          && jsDateGt (b.start_date.getD "") (b.due_date.getD "")) = false := by
  unfold validateCreate
  repeat' split
  all_goals simp_all [Option.isSome_iff_ne_none]

/-! ### Claim theorems -/

/-- C1: every create request with a missing/whitespace `title` or
`author`, a supplied priority outside {low, medium, high}
(case-insensitively), a supplied date that fails to parse, or both
dates supplied with `start_date` after `due_date`, is answered 400
with the message of the first failing check, and the store is left
untouched (the rejection happens before any store call). -/
theorem create_invalid_rejected (b : CreateBody) (now : String) (st : Store)
    (h : blankS b.title = true ∨ blankS b.author = true
       ∨ (tr b.priority && !(validPriorities.contains (lowerStr (b.priority.getD "")))) = true
       ∨ (tr b.due_date && (dateParse (b.due_date.getD "")).isNone) = true
       ∨ (tr b.start_date && (dateParse (b.start_date.getD "")).isNone) = true
       ∨ (tr b.start_date && tr b.due_date
           && jsDateGt (b.start_date.getD "") (b.due_date.getD "")) = true) :
    ∃ msg, validateCreate b = some msg
      ∧ createTask b now st = (.badRequest msg, st)
      ∧ (createTask b now st).1.status = 400 := by
  have hne : validateCreate b ≠ none := by
    intro hnone
    rw [validateCreate_eq_none_iff] at hnone
    rcases h with h | h | h | h | h | h <;> simp_all
  obtain ⟨msg, hm⟩ : ∃ m, validateCreate b = some m := by
    cases hv : validateCreate b
    · exact absurd hv hne
    · exact ⟨_, rfl⟩
  refine ⟨msg, hm, ?_, ?_⟩ <;> unfold createTask <;> rw [hm]
  rfl

/-- Witness for C1: the empty body has a blank title and is rejected
with the store untouched. -/
theorem create_invalid_rejected_witness :
    ∃ msg, validateCreate {} = some msg
      ∧ createTask {} "2024-01-01" ⟨[], 1⟩ = (.badRequest msg, ⟨[], 1⟩)
      ∧ (createTask {} "2024-01-01" ⟨[], 1⟩).1.status = 400 :=
  create_invalid_rejected {} "2024-01-01" ⟨[], 1⟩ (Or.inl (by decide))

/-- C5: a create request that passes validation inserts exactly one
row built from the supplied fields only — `title`/`author` trimmed, a
supplied priority lower-cased, unsupplied optional fields left unset —
and answers 201 with the created record carrying the store-assigned
`id` and `created_at`. -/
theorem create_valid_inserts (b : CreateBody) (now : String) (st : Store)
    (h : validateCreate b = none) :
    ∃ t, createTask b now st = (.created t, ⟨st.rows ++ [t], st.nextId + 1⟩)
      ∧ (createTask b now st).1.status = 201
      ∧ t.id = st.nextId
      ∧ t.created_at = now
      ∧ t.title = jsTrim (b.title.getD "")
      ∧ t.author = jsTrim (b.author.getD "")
      ∧ (tr b.priority = true → t.priority = some (lowerStr (b.priority.getD "")))
      ∧ (tr b.priority = false → t.priority = none)
      ∧ (tr b.description = true → t.description = some (jsTrim (b.description.getD "")))
      ∧ (tr b.description = false → t.description = none)
      ∧ (tr b.due_date = true → t.due_date = b.due_date)
      ∧ (tr b.due_date = false → t.due_date = none)
      ∧ (tr b.start_date = true → t.start_date = b.start_date)
      ∧ (tr b.start_date = false → t.start_date = none) := by
  refine ⟨insertedTask b st.nextId now, ?_, ?_, rfl, rfl, rfl, rfl, ?_, ?_, ?_, ?_, ?_, ?_, ?_, ?_⟩
  · unfold createTask
    rw [h]
  · unfold createTask
    rw [h]
    rfl
  all_goals intro hc <;> simp [insertedTask, hc]

/-- Witness for C5: the spec scenario body (`priority:"HIGH"`, dates
in order) passes validation and is stored with `priority` `"high"`. -/
theorem create_valid_inserts_witness :
    ∃ t, createTask
        { title := some "Write spec", author := some "Ada", priority := some "HIGH",
          start_date := some "2024-01-01", due_date := some "2024-01-10" }
        "2024-01-02" ⟨[], 1⟩
        = (.created t, ⟨[] ++ [t], 2⟩)
      ∧ (createTask
          { title := some "Write spec", author := some "Ada", priority := some "HIGH",
            start_date := some "2024-01-01", due_date := some "2024-01-10" }
          "2024-01-02" ⟨[], 1⟩).1.status = 201
      ∧ t.id = 1
      ∧ t.created_at = "2024-01-02"
      ∧ t.title = jsTrim ((some "Write spec").getD "")
      ∧ t.author = jsTrim ((some "Ada").getD "")
      ∧ (tr (some "HIGH") = true → t.priority = some (lowerStr ((some "HIGH").getD "")))
      ∧ (tr (some "HIGH") = false → t.priority = none)
      ∧ (tr (none : Option String) = true → t.description = some (jsTrim ((none : Option String).getD "")))
      ∧ (tr (none : Option String) = false → t.description = none)
      ∧ (tr (some "2024-01-10") = true → t.due_date = some "2024-01-10")
      ∧ (tr (some "2024-01-10") = false → t.due_date = none)
      ∧ (tr (some "2024-01-01") = true → t.start_date = some "2024-01-01")
      ∧ (tr (some "2024-01-01") = false → t.start_date = none) :=
  create_valid_inserts
    { title := some "Write spec", author := some "Ada", priority := some "HIGH",
      start_date := some "2024-01-01", due_date := some "2024-01-10" }
    "2024-01-02" ⟨[], 1⟩ (by decide)

/-- C2: the paginated list clamps the effective limit to `[1, 100]`
(default 10) and floors the effective page at 1 (default 1); the data
is the zero-based window starting at `(page-1)*limit` of length at
most `limit`; `total` is the exact unfiltered row count; `totalPages`
is `⌈total/limit⌉` (characterised by the two inequalities); and a page
beyond `totalPages` yields an empty data array, not an error. -/
theorem list_pagination (limitQ pageQ : Option String) (st : Store) :
    1 ≤ (listTasks limitQ pageQ st).limit
    ∧ (listTasks limitQ pageQ st).limit ≤ 100
    ∧ (limitQ = none → (listTasks limitQ pageQ st).limit = 10)
    ∧ 1 ≤ (listTasks limitQ pageQ st).page
    ∧ (pageQ = none → (listTasks limitQ pageQ st).page = 1)
    ∧ (listTasks limitQ pageQ st).data =
        (st.rows.drop (((listTasks limitQ pageQ st).page - 1) * (listTasks limitQ pageQ st).limit)).take
          (listTasks limitQ pageQ st).limit
    ∧ (listTasks limitQ pageQ st).data.length ≤ (listTasks limitQ pageQ st).limit
    ∧ (listTasks limitQ pageQ st).total = st.rows.length
    ∧ (listTasks limitQ pageQ st).total ≤ (listTasks limitQ pageQ st).totalPages * (listTasks limitQ pageQ st).limit
    ∧ (listTasks limitQ pageQ st).totalPages * (listTasks limitQ pageQ st).limit
        < (listTasks limitQ pageQ st).total + (listTasks limitQ pageQ st).limit
    ∧ ((listTasks limitQ pageQ st).totalPages < (listTasks limitQ pageQ st).page →
        (listTasks limitQ pageQ st).data = []) := by
  obtain ⟨hl1, hl2, hl3⟩ := effLimit_bounds limitQ 10 (by omega) (by omega)
  obtain ⟨hp1, hp2⟩ := effPage_bounds pageQ
  obtain ⟨hc1, hc2⟩ := ceilDivNat_bounds st.rows.length (effLimit limitQ 10) hl1
  have hwin : (effPage pageQ - 1) * effLimit limitQ 10 + effLimit limitQ 10 - 1 + 1
      - (effPage pageQ - 1) * effLimit limitQ 10 = effLimit limitQ 10 := by omega
  refine ⟨hl1, hl2, fun h => by simp [listTasks, hl3 h], hp1, fun h => by simp [listTasks, hp2 h],
      ?_, ?_, rfl, hc1, hc2, ?_⟩
  · show (st.rows.drop ((effPage pageQ - 1) * effLimit limitQ 10)).take
        ((effPage pageQ - 1) * effLimit limitQ 10 + effLimit limitQ 10 - 1 + 1
          - (effPage pageQ - 1) * effLimit limitQ 10)
      = (st.rows.drop ((effPage pageQ - 1) * effLimit limitQ 10)).take (effLimit limitQ 10)
    rw [hwin]
  · show ((st.rows.drop ((effPage pageQ - 1) * effLimit limitQ 10)).take
        ((effPage pageQ - 1) * effLimit limitQ 10 + effLimit limitQ 10 - 1 + 1
          - (effPage pageQ - 1) * effLimit limitQ 10)).length ≤ effLimit limitQ 10
    rw [hwin]
    exact (List.length_take _ _).trans_le (min_le_left _ _)
  · intro hbeyond
    have hb : ceilDivNat st.rows.length (effLimit limitQ 10) < effPage pageQ := hbeyond
    show (st.rows.drop ((effPage pageQ - 1) * effLimit limitQ 10)).take
        ((effPage pageQ - 1) * effLimit limitQ 10 + effLimit limitQ 10 - 1 + 1
          - (effPage pageQ - 1) * effLimit limitQ 10) = []
    have hdrop : st.rows.drop ((effPage pageQ - 1) * effLimit limitQ 10) = [] := by
      apply List.drop_eq_nil_of_le
      calc st.rows.length ≤ ceilDivNat st.rows.length (effLimit limitQ 10) * effLimit limitQ 10 := hc1
        _ ≤ (effPage pageQ - 1) * effLimit limitQ 10 := by
            apply Nat.mul_le_mul_right
            exact Nat.le_sub_one_of_lt hb
    rw [hdrop]
    simp

/-- Witness for C2: instantiation at absent parameters and a two-row
store (defaults applied: limit 10, page 1). -/
theorem list_pagination_witness :
    1 ≤ (listTasks none none ⟨[⟨1, "a", "b", none, none, none, none, "", none⟩], 2⟩).limit
    ∧ ((none : Option String) = none →
        (listTasks none none ⟨[⟨1, "a", "b", none, none, none, none, "", none⟩], 2⟩).limit = 10) := by
  have h := list_pagination none none ⟨[⟨1, "a", "b", none, none, none, none, "", none⟩], 2⟩
  exact ⟨h.1, h.2.2.1⟩

/-- C3: for a search request that passes validation, a stored row is
in the match set iff the trimmed term `ilike`-matches at least one
selected field AND every supplied structured filter holds (priority
membership, author substring, each independently optional inclusive
date bound) — logical AND between the text group and each filter. -/
theorem search_match_semantics (p : SearchParams) (rows : List Task) (t : Task)
    (_hq : blankS p.q = false) (_hf : resolveFields p.fields ≠ []) :
    t ∈ searchMatchedRows p rows ↔
      t ∈ rows
      ∧ (∃ f ∈ resolveFields p.fields, ilikeOpt (fieldVal t f) (jsTrim (p.q.getD "")) = true)
      ∧ (tr p.priority = true → inOpt t.priority (searchPriorities (p.priority.getD "")) = true)
      ∧ (tr p.author = true → ilikeB t.author (jsTrim (p.author.getD "")) = true)
      ∧ (tr p.start_date_from = true → geOpt t.start_date (p.start_date_from.getD "") = true)
      ∧ (tr p.start_date_to = true → leOpt t.start_date (p.start_date_to.getD "") = true)
      ∧ (tr p.due_date_from = true → geOpt t.due_date (p.due_date_from.getD "") = true)
      ∧ (tr p.due_date_to = true → leOpt t.due_date (p.due_date_to.getD "") = true) := by
  unfold searchMatchedRows searchQuery
  rw [mem_runFilters, addCommonFilters_filters]
  simp only [DBQuery.select, DBQuery.addF, List.nil_append, List.mem_append, List.mem_singleton,
    mem_condF, or_imp, forall_and, forall_eq, and_imp, forall_eq_apply_imp_iff, textPred,
    List.any_eq_true]
  tauto

/-- Witness for C3: a concrete row matching the term in `title` and
the supplied `priority`/date filters is in the match set. -/
theorem search_match_semantics_witness :
    blankS (some "alpha") = false
    ∧ resolveFields (some "title,description") ≠ []
    ∧ ({ id := 1, title := "alpha task", author := "Ada", priority := some "high",
         start_date := some "2024-01-05", created_at := "2024-01-01" } : Task)
        ∈ searchMatchedRows
          { q := some "alpha", fields := some "title,description",
            priority := some "high,low", start_date_from := some "2024-01-01" }
          [{ id := 1, title := "alpha task", author := "Ada", priority := some "high",
             start_date := some "2024-01-05", created_at := "2024-01-01" }] :=
  ⟨by decide, by decide,
    (search_match_semantics
      { q := some "alpha", fields := some "title,description",
        priority := some "high,low", start_date_from := some "2024-01-01" }
      [{ id := 1, title := "alpha task", author := "Ada", priority := some "high",
         start_date := some "2024-01-05", created_at := "2024-01-01" }]
      { id := 1, title := "alpha task", author := "Ada", priority := some "high",
        start_date := some "2024-01-05", created_at := "2024-01-01" }
      (by decide) (by decide)).mpr (by decide)⟩

/-- C6: a search with `q` missing or whitespace-only is rejected 400
whatever the other parameters; a supplied `fields` keeps exactly the
entries whose trimmed form is a searchable field; if nothing survives
the response is 400 listing the valid set; an absent `fields` selects
all four searchable fields. -/
theorem search_validation (p : SearchParams) (st : Store) :
    (blankS p.q = true →
       searchTasks p st = .badRequest "Query parameter q is required"
       ∧ (searchTasks p st).status = 400)
    ∧ (∀ s, p.fields = some s → s ≠ "" →
        ∀ f, f ∈ resolveFields p.fields ↔ f ∈ splitComma s ∧ jsTrim f ∈ searchableFields)
    ∧ (p.fields = none → resolveFields p.fields = searchableFields)
    ∧ (blankS p.q = false → resolveFields p.fields = [] →
        searchTasks p st = .badRequest "Invalid fields. Available: title, description, author, priority"
        ∧ (searchTasks p st).status = 400) := by
  refine ⟨fun h => ?_, fun s hs hne f => ?_, fun h => ?_, fun h1 h2 => ?_⟩
  · constructor
    · unfold searchTasks
      rw [if_pos h]
    · unfold searchTasks
      rw [if_pos h]
      rfl
  · rw [hs]
    simp [resolveFields, tr, hne, List.mem_filter]
  · rw [h]
    rfl
  · constructor
    · unfold searchTasks
      rw [if_neg (by simp [h1]), h2]
      rfl
    · unfold searchTasks
      rw [if_neg (by simp [h1]), h2]
      rfl

/-- Witness for C6: a whitespace-only `q` is rejected 400; unknown
entries of `fields` are dropped. -/
theorem search_validation_witness :
    (searchTasks { q := some "  ", fields := some "bogus" } ⟨[], 1⟩
        = .badRequest "Query parameter q is required")
    ∧ ("title" ∈ resolveFields (some "title,bogus")
        ↔ "title" ∈ splitComma "title,bogus" ∧ jsTrim "title" ∈ searchableFields)
    ∧ resolveFields none = searchableFields
    ∧ searchTasks { q := some "x", fields := some "bogus" } ⟨[], 1⟩
        = .badRequest "Invalid fields. Available: title, description, author, priority" := by
  refine ⟨((search_validation { q := some "  ", fields := some "bogus" } ⟨[], 1⟩).1 (by decide)).1,
    (search_validation { q := some "x", fields := some "title,bogus" } ⟨[], 1⟩).2.1
      "title,bogus" rfl (by decide) "title",
    (search_validation { q := some "x" } ⟨[], 1⟩).2.2.1 rfl,
    ((search_validation { q := some "x", fields := some "bogus" } ⟨[], 1⟩).2.2.2
      (by decide) (by decide)).1⟩

/-- C4: in a store with unique ids, the get-by-id operation signals a
failure exactly when the id resolves to no row — the store's error on
an empty single-row read is the operation's "not found" signal (the
handler forwards it as a 500 error response, never as data). -/
theorem getById_failure_iff_absent (id : Nat) (st : Store)
    (hnd : (st.rows.map Task.id).Nodup) :
    ((∃ m, getTask id st = .fetchError m) ↔ ¬ ∃ t ∈ st.rows, t.id = id)
    ∧ (∀ m, getTask id st = .fetchError m → (getTask id st).status = 500)
    ∧ (∀ t ∈ st.rows, t.id = id → getTask id st = .ok t) := by
  rcases filter_byId_cases st.rows hnd id with ⟨hne, hfe⟩ | ⟨t0, hmem, hteq, hfe⟩
  · have hget : getTask id st
        = .fetchError "JSON object requested, multiple (or no) rows returned" := by
      unfold getTask
      rw [hfe]
      rfl
    refine ⟨⟨fun _ => hne, fun _ => ⟨_, hget⟩⟩, fun m hm => by rw [hm]; rfl, ?_⟩
    intro t ht hteq
    exact absurd ⟨t, ht, hteq⟩ hne
  · have hget : getTask id st = .ok t0 := by
      unfold getTask
      rw [hfe]
      rfl
    refine ⟨⟨?_, fun hcon => (hcon ⟨t0, hmem, hteq⟩).elim⟩, fun m hm => by rw [hm]; rfl, ?_⟩
    · rintro ⟨m, hm⟩
      rw [hget] at hm
      cases hm
    · intro t ht hteq'
      have : t = t0 :=
        List.inj_on_of_nodup_map hnd ht hmem (by rw [hteq', hteq])
      rw [this]
      exact hget

/-- Witness for C4: a store holding only id 1 has unique ids; fetching
id 2 fails, fetching id 1 returns the row. -/
theorem getById_failure_iff_absent_witness :
    ((∃ m, getTask 2 ⟨[⟨1, "a", "b", none, none, none, none, "", none⟩], 2⟩ = .fetchError m)
      ↔ ¬ ∃ t ∈ ([⟨1, "a", "b", none, none, none, none, "", none⟩] : List Task), t.id = 2)
    ∧ getTask 1 ⟨[⟨1, "a", "b", none, none, none, none, "", none⟩], 2⟩
        = .ok ⟨1, "a", "b", none, none, none, none, "", none⟩ :=
  ⟨(getById_failure_iff_absent 2 ⟨[⟨1, "a", "b", none, none, none, none, "", none⟩], 2⟩
      (by decide)).1,
    (getById_failure_iff_absent 1 ⟨[⟨1, "a", "b", none, none, none, none, "", none⟩], 2⟩
      (by decide)).2.2 ⟨1, "a", "b", none, none, none, none, "", none⟩ (by decide) rfl⟩

/-- C8: in a store with unique ids, updating a non-resolving id
answers 404 and leaves the store unchanged; updating a resolving id is
applied only after that existence check, and the updated row is
returned with 200. -/
theorem update_semantics (id : Nat) (u : UpdateBody) (st : Store)
    (hnd : (st.rows.map Task.id).Nodup) :
    (¬(∃ t ∈ st.rows, t.id = id) →
      updateTask id u st = (.notFound "Task not found", st)
      ∧ (updateTask id u st).1.status = 404)
    ∧ (∀ t0 ∈ st.rows, t0.id = id →
      updateTask id u st =
        (.ok (applyUpdates t0 u),
         ⟨st.rows.map (fun t => if t.id == id then applyUpdates t u else t), st.nextId⟩)
      ∧ (updateTask id u st).1.status = 200) := by
  rcases filter_byId_cases st.rows hnd id with ⟨hne, hfe⟩ | ⟨t0, hmem, hteq, hfe⟩
  · have hupd : updateTask id u st = (.notFound "Task not found", st) := by
      unfold updateTask
      rw [hfe]
      rfl
    refine ⟨fun _ => ⟨hupd, by rw [hupd]; rfl⟩, ?_⟩
    intro t ht hteq
    exact absurd ⟨t, ht, hteq⟩ hne
  · have hid : (applyUpdates t0 u).id = t0.id := rfl
    have hfilterMap : (st.rows.map (fun t => if t.id == id then applyUpdates t u else t)).filter
        (fun t => t.id == id) = [applyUpdates t0 u] := by
      rw [List.filter_map]
      have hp : ((fun (t : Task) => t.id == id) ∘ fun t => if t.id == id then applyUpdates t u else t)
          = fun t => t.id == id := by
        funext t
        by_cases h : t.id = id <;> simp [Function.comp, applyUpdates, h]
      rw [hp, hfe]
      simp [hteq]
    have hupd : updateTask id u st =
        (.ok (applyUpdates t0 u),
         ⟨st.rows.map (fun t => if t.id == id then applyUpdates t u else t), st.nextId⟩) := by
      unfold updateTask
      rw [hfe]
      simp only [singleRead]
      rw [hfilterMap]
    refine ⟨fun hcon => (hcon ⟨t0, hmem, hteq⟩).elim, ?_⟩
    intro t1 ht1 hteq1
    have heq : t1 = t0 := List.inj_on_of_nodup_map hnd ht1 hmem (by rw [hteq1, hteq])
    rw [heq]
    exact ⟨hupd, by rw [hupd]; rfl⟩

/-- Witness for C8: updating an absent id leaves the one-row store
untouched with 404; updating the present id returns the updated row. -/
theorem update_semantics_witness :
    (updateTask 9 { description := some "done" }
        ⟨[⟨1, "a", "b", none, none, none, none, "", none⟩], 2⟩
      = (.notFound "Task not found", ⟨[⟨1, "a", "b", none, none, none, none, "", none⟩], 2⟩))
    ∧ updateTask 1 { description := some "done" }
        ⟨[⟨1, "a", "b", none, none, none, none, "", none⟩], 2⟩
      = (.ok (applyUpdates ⟨1, "a", "b", none, none, none, none, "", none⟩
              { description := some "done" }),
         ⟨([⟨1, "a", "b", none, none, none, none, "", none⟩] : List Task).map
            (fun t => if t.id == 1 then applyUpdates t { description := some "done" } else t), 2⟩) :=
  ⟨((update_semantics 9 { description := some "done" }
      ⟨[⟨1, "a", "b", none, none, none, none, "", none⟩], 2⟩ (by decide)).1 (by decide)).1,
    ((update_semantics 1 { description := some "done" }
      ⟨[⟨1, "a", "b", none, none, none, none, "", none⟩], 2⟩ (by decide)).2
      ⟨1, "a", "b", none, none, none, none, "", none⟩ (by decide) rfl).1⟩

/-- C9: in a store with unique ids, deleting a non-resolving id
answers 404 with the store unchanged; deleting a resolving id removes
exactly that row, answers 200 with the row as it existed immediately
before deletion, and a subsequent fetch of the id signals the
not-found failure. -/
theorem delete_semantics (id : Nat) (st : Store)
    (hnd : (st.rows.map Task.id).Nodup) :
    (¬(∃ t ∈ st.rows, t.id = id) →
      deleteTask id st = (.notFound "Task not found", st)
      ∧ (deleteTask id st).1.status = 404)
    ∧ (∀ t0 ∈ st.rows, t0.id = id →
      deleteTask id st = (.ok t0, ⟨st.rows.filter (fun t => !(t.id == id)), st.nextId⟩)
      ∧ (deleteTask id st).1.status = 200
      ∧ ¬(∃ t ∈ (deleteTask id st).2.rows, t.id = id)
      ∧ (∃ m, getTask id (deleteTask id st).2 = .fetchError m)) := by
  rcases filter_byId_cases st.rows hnd id with ⟨hne, hfe⟩ | ⟨t0, hmem, hteq, hfe⟩
  · have hdel : deleteTask id st = (.notFound "Task not found", st) := by
      unfold deleteTask
      rw [hfe]
      rfl
    refine ⟨fun _ => ⟨hdel, by rw [hdel]; rfl⟩, ?_⟩
    intro t ht hteq
    exact absurd ⟨t, ht, hteq⟩ hne
  · have hdel : deleteTask id st
        = (.ok t0, ⟨st.rows.filter (fun t => !(t.id == id)), st.nextId⟩) := by
      unfold deleteTask
      rw [hfe]
      rfl
    have habs : ¬(∃ t ∈ st.rows.filter (fun t => !(t.id == id)), t.id = id) := by
      rintro ⟨t, ht, hteq'⟩
      have := List.of_mem_filter ht
      simp [hteq'] at this
    refine ⟨fun hcon => (hcon ⟨t0, hmem, hteq⟩).elim, ?_⟩
    intro t1 ht1 hteq1
    have heq : t1 = t0 := List.inj_on_of_nodup_map hnd ht1 hmem (by rw [hteq1, hteq])
    subst heq
    refine ⟨hdel, by rw [hdel]; rfl, by rw [hdel]; exact habs, ?_⟩
    rw [hdel]
    have hfe2 : (st.rows.filter (fun t => !(t.id == id))).filter (fun t => t.id == id) = [] := by
      rw [List.filter_eq_nil_iff]
      intro t ht
      have := List.of_mem_filter ht
      simp only [beq_iff_eq]
      intro hc
      simp [hc] at this
    exact ⟨_, by unfold getTask; rw [hfe2]; rfl⟩

/-- Witness for C9: deleting id 9 from a one-row store is a 404
no-op; deleting id 1 returns the pre-deletion record, empties the
store, and a subsequent fetch of id 1 fails. -/
theorem delete_semantics_witness :
    (deleteTask 9 ⟨[⟨1, "a", "b", none, none, none, none, "", none⟩], 2⟩
      = (.notFound "Task not found", ⟨[⟨1, "a", "b", none, none, none, none, "", none⟩], 2⟩))
    ∧ deleteTask 1 ⟨[⟨1, "a", "b", none, none, none, none, "", none⟩], 2⟩
      = (.ok ⟨1, "a", "b", none, none, none, none, "", none⟩,
         ⟨([⟨1, "a", "b", none, none, none, none, "", none⟩] : List Task).filter
            (fun t => !(t.id == 1)), 2⟩)
    ∧ (∃ m, getTask 1 (deleteTask 1 ⟨[⟨1, "a", "b", none, none, none, none, "", none⟩], 2⟩).2
        = .fetchError m) := by
  have h9 := delete_semantics 9 ⟨[⟨1, "a", "b", none, none, none, none, "", none⟩], 2⟩ (by decide)
  have h1 := (delete_semantics 1 ⟨[⟨1, "a", "b", none, none, none, none, "", none⟩], 2⟩
      (by decide)).2 ⟨1, "a", "b", none, none, none, none, "", none⟩ (by decide) rfl
  exact ⟨(h9.1 (by decide)).1, h1.1, h1.2.2.2⟩

/-- Any window of rows ordered with `nullsFirst: false` places the
rows whose sort column is `NULL` after every non-`NULL` row. -/
theorem rangeRows_pairwise_nullsLast (field : String) (asc : Bool) (rows : List Task)
    (a b : Nat) :
    (rangeRows a b (orderRows field asc false rows)).Pairwise
      (fun x y => fieldVal x field = none → fieldVal y field = none) := by
  have hpw : (orderRows field asc false rows).Pairwise
      (fun x y => fieldVal x field = none → fieldVal y field = none) := by
    refine (orderRows_sorted field asc false rows).imp ?_
    intro x y hle hna
    cases hb : fieldVal y field
    · rfl
    · rw [hna, hb] at hle
      simp [optCmpLe] at hle
  exact hpw.sublist ((List.take_sublist _ _).trans (List.drop_sublist _ _))

/-- C7: the sort endpoint resolves `sort_by` to itself exactly when it
is one of the eight sortable fields and to `created_at` otherwise;
the order is ascending exactly when `order` equals `asc`; and rows
whose value in the sort column is null come after all others in the
returned data, regardless of direction. -/
theorem sort_semantics (p : SortParams) (st : Store) :
    (∀ s, p.sort_by = some s → s ∈ sortableFieldNames → (sortTasks p st).sortField = s)
    ∧ (∀ s, p.sort_by = some s → s ∉ sortableFieldNames →
        (sortTasks p st).sortField = "created_at")
    ∧ (p.sort_by = none → (sortTasks p st).sortField = "created_at")
    ∧ ((sortTasks p st).orderStr = "asc" ↔ p.order = some "asc")
    ∧ (sortTasks p st).data.Pairwise
        (fun x y => fieldVal x (sortTasks p st).sortField = none →
          fieldVal y (sortTasks p st).sortField = none) := by
  refine ⟨?_, ?_, ?_, ?_, ?_⟩
  · intro s hs hmem
    have hne : s ≠ "" := by
      rintro rfl
      simp [sortableFieldNames] at hmem
    have hc : sortableFieldNames.contains s = true := by simpa using hmem
    have ht : tr (some s) = true := by simp [tr, hne]
    show resolveSortBy p.sort_by = s
    rw [hs]
    show (if (tr (some s) && sortableFieldNames.contains s) = true then s else "created_at") = s
    rw [ht, hc]
    rfl
  · intro s hs hmem
    have hc : sortableFieldNames.contains s = false := by simpa using hmem
    show resolveSortBy p.sort_by = "created_at"
    rw [hs]
    show (if (tr (some s) && sortableFieldNames.contains s) = true then s else "created_at")
        = "created_at"
    rw [hc, Bool.and_false]
    rfl
  · intro hs
    show resolveSortBy p.sort_by = "created_at"
    rw [hs]
    rfl
  · show (if (p.order == some "asc") = true then "asc" else "desc") = "asc" ↔ p.order = some "asc"
    by_cases ho : p.order = some "asc"
    · simp [ho]
    · have hb : (p.order == some "asc") = false := beq_eq_false_iff_ne.mpr ho
      simp [hb, ho]
  · exact rangeRows_pairwise_nullsLast (resolveSortBy p.sort_by) (p.order == some "asc")
      (sortMatchedRows p st.rows) _ _

/-- Witness for C7: `sort_by=due_date` resolves to itself, a bogus
field falls back to `created_at`, and absent `order` reads `desc`. -/
theorem sort_semantics_witness :
    (sortTasks { sort_by := some "due_date" } ⟨[], 1⟩).sortField = "due_date"
    ∧ (sortTasks { sort_by := some "bogus" } ⟨[], 1⟩).sortField = "created_at"
    ∧ ((sortTasks { sort_by := some "due_date" } ⟨[], 1⟩).orderStr = "asc"
        ↔ (some "due_date" : Option String).bind (fun _ => none) = some "asc") := by
  refine ⟨(sort_semantics { sort_by := some "due_date" } ⟨[], 1⟩).1 "due_date" rfl (by decide),
    (sort_semantics { sort_by := some "bogus" } ⟨[], 1⟩).2.1 "bogus" rfl (by decide),
    ?_⟩
  have h := (sort_semantics { sort_by := some "due_date" } ⟨[], 1⟩).2.2.2.1
  simpa using h

/-- C10: the two filtered-list endpoints normalize the priority filter
differently — search only trims each comma-separated entry, sort also
lower-cases it — so with `priority=HIGH` against a row stored with
priority `high`, the sort endpoint returns the row while the search
endpoint's match set excludes it even though its title matches the
search term. -/
theorem priority_filter_divergence :
    searchPriorities "HIGH" = ["HIGH"]
    ∧ sortPriorities "HIGH" = ["high"]
    ∧ searchMatchedRows { q := some "alpha", priority := some "HIGH" }
        [{ id := 1, title := "alpha task", author := "Ada", priority := some "high",
           created_at := "2024-01-01" }] = []
    ∧ (sortTasks { priority := some "HIGH" }
        ⟨[{ id := 1, title := "alpha task", author := "Ada", priority := some "high",
            created_at := "2024-01-01" }], 2⟩).data
      = [{ id := 1, title := "alpha task", author := "Ada", priority := some "high",
           created_at := "2024-01-01" }]
    ∧ ilikeB "alpha task" (jsTrim ((some "alpha").getD "")) = true :=
  ⟨by decide, by decide, by decide, by decide, by decide⟩

end TaskApi
